import Mathlib

/-!
Verification of the krane deployment engine against its specification.

The development shallowly embeds the deployment reconciler
(`internal/deployment/deployment.go`), the docker port (`docker/docker.go`),
and the service workflow health check (the `service` package) as executable
Lean functions.  External effects (container runtime, store, queue) are
modelled as explicit state passed through each operation, with injected
faults standing for the failure cases the Go code branches on.  Each
operation additionally records the runtime calls it performs as a list of
events, so that ordering claims can be stated about traces.
-/

namespace Krane

/-- Deployment configuration (the fields of `Config` the engine reads:
name, registry, image, tag and scale).  `Scale` is an `Int` because the Go
field is an `int` and the create loop `for i := 0; i < config.Scale` runs
`Scale.toNat` times. -/
structure Config where
  Name : String
  Registry : String
  Image : String
  Tag : String
  Scale : Int
  deriving Repr, DecidableEq

/-! ## Service workflow health check (`checkNewContainersHealth`)

The retriable container health check: for each container in order, a loop
`for i := 0; i <= pollRetry; i++` that sleeps `10*i` seconds, probes
`container.Ok()`, continues on an unhealthy or errored probe, and fails
once the last allowed attempt (`i == pollRetry`) is still unhealthy.
A probe outcome is modelled as `Except String Bool` (the `(ok, err)` pair
returned by `Ok()`), indexed by the attempt number.  The function returns
the loop result together with the list of sleeps performed (in seconds),
one entry per probe attempt actually made. -/

namespace Service

/-- One container's retry loop, iterating over the remaining attempt
indices (the full call uses `[0, ..., pollRetry]`).  Mirrors the body of
the inner loop of `checkNewContainersHealth`: sleep `10*i`, probe, break
on healthy, report `container health unstable` when attempt `pollRetry`
is reached without a healthy probe. -/
def checkContainerHealth (p : Nat → Except String Bool) (pollRetry : Nat) :
    List Nat → Except String Unit × List Nat
  | [] => (Except.ok (), [])
  | i :: rest =>
    match p i with
    | Except.ok true => (Except.ok (), [10 * i])
    | Except.ok false =>
      if i = pollRetry then (Except.error "container health unstable", [10 * i])
      else
        match checkContainerHealth p pollRetry rest with
        | (r, ss) => (r, 10 * i :: ss)
    | Except.error _ =>
      if i = pollRetry then (Except.error "container health unstable", [10 * i])
      else
        match checkContainerHealth p pollRetry rest with
        | (r, ss) => (r, 10 * i :: ss)

/-- The outer loop of `checkNewContainersHealth`: containers are probed one
after another (the inner retry loop of a container runs to completion
before the next container is considered), and the first container that
exhausts its budget fails the whole check.  Returns the result together
with the per-container sleep schedules actually performed. -/
def checkNewContainersHealth :
    List (Nat → Except String Bool) → Nat → Except String Unit × List (List Nat)
  | [], _ => (Except.ok (), [])
  | p :: rest, pollRetry =>
    match checkContainerHealth p pollRetry (List.range (pollRetry + 1)) with
    | (Except.error e, ss) => (Except.error e, [ss])
    | (Except.ok _, ss) =>
      match checkNewContainersHealth rest pollRetry with
      | (r, sss) => (r, ss :: sss)

end Service

/-! ## Docker port (`docker/docker.go`)

The module-wide client `dkrClient` is modelled as an `Option DockerClient`:
`none` is the state before `New` has initialized it.  A `DockerClient` is
an oracle for the responses of the docker daemon.  Every operation returns
its result together with the list of runtime calls it performed, so the
nil-client claims can state that no runtime call happens. -/

namespace Docker

/-- Container configuration assembled by `CreateContainer`
(`container.Config`): hostname, image, env and labels. -/
structure ContainerConfig where
  Hostname : String
  Image : String
  Env : List String
  Labels : List (String × String)
  deriving Repr, DecidableEq

/-- A host port binding (`nat.PortBinding`). -/
structure PortBinding where
  HostIP : String
  HostPort : String
  deriving Repr, DecidableEq

/-- Host configuration (`container.HostConfig`): port bindings keyed by
container port, and the auto-remove flag. -/
structure HostConfig where
  PortBindings : List (String × PortBinding)
  AutoRemove : Bool
  deriving Repr, DecidableEq

/-- Networking configuration (`network.NetworkingConfig`): endpoint name
mapped to the network ID it attaches to. -/
structure NetworkingConfig where
  EndpointsConfig : List (String × String)
  deriving Repr, DecidableEq

/-- A docker network as returned by `NetworkList`
(`types.NetworkResource`); the zero value has empty name and ID. -/
structure NetworkResource where
  Name : String
  ID : String
  deriving Repr, DecidableEq

/-- The docker host's network state: the existing networks and a counter
from which the daemon mints fresh network IDs. -/
structure DockerHost where
  networks : List NetworkResource
  nextNetId : Nat

/-- A runtime call performed against the docker daemon. -/
inductive DockerCall where
  | imagePull (image : String)
  | containerCreate (conf : ContainerConfig) (hostConf : HostConfig)
      (networkConf : NetworkingConfig) (containerName : String)
  | containerStart (id : String)
  | networkConnect (networkID containerID : String)
  | containerStop (id : String) (timeoutSeconds : Nat)
  | containerRemove (id : String)
  | containerList
  | containerStats (id : String) (stream : Bool)
  | networkCreate (name : String)
  | networkList
  | imageRemove (id : String)
  | containerLogs (id : String)
  deriving Repr, DecidableEq

/-- Response oracle for the docker daemon, standing for the external
`client.Client` held in the module-wide `dkrClient` variable. -/
structure DockerClient where
  imagePull : String → Except String Unit
  containerCreate : ContainerConfig → HostConfig → NetworkingConfig → String → Except String String
  containerStart : String → Except String Unit
  networkConnect : String → String → Except String Unit
  containerStop : String → Nat → Except String Unit
  containerRemove : String → Except String Unit
  containerList : Except String (List String)
  containerStats : String → Bool → Except String String
  networkListErr : Option String
  networkCreateErr : Option String
  imageRemove : String → Except String (List String)
  containerLogs : String → Except String String

/-- Model of the external `nat.NewPort("tcp", port)` from go-connections:
succeeds on a non-empty numeric port string, yielding `port/proto`. -/
def natNewPort (proto portNumber : String) : Except String String :=
  if portNumber.data.length > 0 && portNumber.data.all Char.isDigit then
    Except.ok (portNumber ++ "/" ++ proto)
  else Except.error ("invalid port " ++ portNumber)

/-- `PullImage`: nil-client guard, then `ImagePull`. -/
def PullImage (cl : Option DockerClient) (image : String) :
    Except String Unit × List DockerCall :=
  match cl with
  | none => (Except.error "docker client not initialized", [])
  | some c => (c.imagePull image, [DockerCall.imagePull image])

/-- `CreateContainer`: nil-client guard, host/container port setup, then
the container, host and networking configurations exactly as assembled in
the source (hostname `"bsn"`, env `["TEST_ENV=pipi"]`, the
`deployment.name` label, a single `0.0.0.0` port binding, the `krane`
endpoint), then `ContainerCreate`. -/
def CreateContainer (cl : Option DockerClient)
    (image deploymentName containerName networkID hPort cPort : String) :
    Except String String × List DockerCall :=
  match cl with
  | none => (Except.error "docker client not initialized", [])
  | some c =>
    let hostBinding : PortBinding := { HostIP := "0.0.0.0", HostPort := hPort }
    match natNewPort "tcp" cPort with
    | Except.error e => (Except.error e, [])
    | Except.ok containerPort =>
      let portBinding : List (String × PortBinding) := [(containerPort, hostBinding)]
      let hostConf : HostConfig := { PortBindings := portBinding, AutoRemove := false }
      let containerConf : ContainerConfig :=
        { Hostname := "bsn"
          Image := image
          Env := ["TEST_ENV=pipi"]
          Labels := [("deployment.name", deploymentName)] }
      let networkConf : NetworkingConfig := { EndpointsConfig := [("krane", networkID)] }
      (c.containerCreate containerConf hostConf networkConf containerName,
       [DockerCall.containerCreate containerConf hostConf networkConf containerName])

/-- `StartContainer`: nil-client guard, then `ContainerStart`. -/
def StartContainer (cl : Option DockerClient) (containerID : String) :
    Except String Unit × List DockerCall :=
  match cl with
  | none => (Except.error "docker client not initialized", [])
  | some c => (c.containerStart containerID, [DockerCall.containerStart containerID])

/-- `ConnectContainerToNetwork`: nil-client guard, then `NetworkConnect`. -/
def ConnectContainerToNetwork (cl : Option DockerClient) (networkID containerID : String) :
    Except String Unit × List DockerCall :=
  match cl with
  | none => (Except.error "docker client not initialized", [])
  | some c => (c.networkConnect networkID containerID,
               [DockerCall.networkConnect networkID containerID])

/-- `StopContainer`: nil-client guard, then `ContainerStop` with the fixed
60 second timeout. -/
def StopContainer (cl : Option DockerClient) (containerID : String) :
    Except String Unit × List DockerCall :=
  match cl with
  | none => (Except.error "docker client not initialized", [])
  | some c => (c.containerStop containerID 60, [DockerCall.containerStop containerID 60])

/-- `RemoveContainer`: nil-client guard, then `ContainerRemove`. -/
def RemoveContainer (cl : Option DockerClient) (containerID : String) :
    Except String Unit × List DockerCall :=
  match cl with
  | none => (Except.error "docker client not initialized", [])
  | some c => (c.containerRemove containerID, [DockerCall.containerRemove containerID])

/-- `ListContainers`: nil-client guard, then `ContainerList`. -/
def ListContainers (cl : Option DockerClient) :
    Except String (List String) × List DockerCall :=
  match cl with
  | none => (Except.error "docker client not initialized", [])
  | some c => (c.containerList, [DockerCall.containerList])

/-- `GetContainerStatus`: nil-client guard, then `ContainerStats`. -/
def GetContainerStatus (cl : Option DockerClient) (containerID : String) (stream : Bool) :
    Except String String × List DockerCall :=
  match cl with
  | none => (Except.error "docker client not initialized", [])
  | some c => (c.containerStats containerID stream,
               [DockerCall.containerStats containerID stream])

/-- `FormatImageSourceURL`: defaults an empty tag to `latest` and formats
`"%s/%s:%s"` from repo, image name and tag. -/
def FormatImageSourceURL (repo imageName tag : String) : String :=
  let tag := if tag = "" then "latest" else tag
  repo ++ "/" ++ imageName ++ ":" ++ tag

/-- The loop of `GetNetworkByName` over the listed networks: the first
network whose name matches is returned, otherwise the zero value (empty
name and ID). -/
def findNetwork : List NetworkResource → String → NetworkResource
  | [], _ => { Name := "", ID := "" }
  | n :: rest, name => if n.Name = name then n else findNetwork rest name

/-- `GetNetworkByName`: nil-client guard, `NetworkList`, then the
first-match loop. -/
def GetNetworkByName (cl : Option DockerClient) (h : DockerHost) (name : String) :
    Except String NetworkResource × List DockerCall :=
  match cl with
  | none => (Except.error "docker client not initialized", [])
  | some c =>
    match c.networkListErr with
    | some e => (Except.error e, [DockerCall.networkList])
    | none => (Except.ok (findNetwork h.networks name), [DockerCall.networkList])

/-- Network IDs minted by the daemon for newly created networks. -/
def mkNetId (k : Nat) : String := "net-" ++ toString k

/-- `CreateBridgeNetwork`: nil-client guard, look the name up via
`GetNetworkByName`, return the existing network's ID unchanged when one is
found (non-empty ID), otherwise `NetworkCreate` a bridge network with a
fresh ID.  Returns the resulting ID and the updated host state. -/
def CreateBridgeNetwork (cl : Option DockerClient) (h : DockerHost) (name : String) :
    Except String (String × DockerHost) × List DockerCall :=
  match cl with
  | none => (Except.error "docker client not initialized", [])
  | some c =>
    match GetNetworkByName cl h name with
    | (Except.error e, calls) => (Except.error e, calls)
    | (Except.ok kNet, calls) =>
      if kNet.ID ≠ "" then (Except.ok (kNet.ID, h), calls)
      else
        match c.networkCreateErr with
        | some e => (Except.error e, calls ++ [DockerCall.networkCreate name])
        | none =>
          let newID := mkNetId h.nextNetId
          (Except.ok (newID,
             { networks := h.networks ++ [{ Name := name, ID := newID }]
               nextNetId := h.nextNetId + 1 }),
           calls ++ [DockerCall.networkCreate name])

/-- `RemoveImage`: nil-client guard, then `ImageRemove`. -/
def RemoveImage (cl : Option DockerClient) (imageID : String) :
    Except String (List String) × List DockerCall :=
  match cl with
  | none => (Except.error "docker client not initialized", [])
  | some c => (c.imageRemove imageID, [DockerCall.imageRemove imageID])

/-- `ReadContainerLogs`: nil-client guard, then `ContainerLogs`. -/
def ReadContainerLogs (cl : Option DockerClient) (containerID : String) :
    Except String String × List DockerCall :=
  match cl with
  | none => (Except.error "docker client not initialized", [])
  | some c => (c.containerLogs containerID, [DockerCall.containerLogs containerID])

end Docker

/-! ## Deployment reconciler jobs (`internal/deployment/deployment.go`)

The world state visible to a deployment job: the containers on the host,
the per-deployment secret and job collections, the stored configs, a
counter minting fresh container IDs, and the injected faults deciding
which runtime/store calls fail.  Every operation returns
`result × world × events`, where the events record the calls performed
(used by the ordering claims).  Operations are sequenced with `seqE`,
which plays the role of Go's early `return err`. -/

namespace Deployment

/-- A container of a deployment as the engine sees it (`KraneContainer`):
runtime ID, owning deployment (the `deployment.name` label) and state. -/
structure KraneContainer where
  ID : String
  Deployment : String
  Status : String
  deriving Repr, DecidableEq

/-- Fault injection for the external calls a job performs; each field
decides whether the corresponding runtime/store call fails.  `probe` is
the health probe outcome of container `id` at attempt `i`. -/
structure Faults where
  pullFails : Bool
  createFails : Nat → Bool
  startFails : String → Bool
  probe : String → Nat → Except String Bool
  removeFails : String → Bool
  createSecretsFails : Bool
  createJobsFails : Bool
  delSecretsFails : Bool
  delJobsFails : Bool
  delConfigFails : Bool

/-- The state a deployment job acts on. -/
structure World where
  containers : List KraneContainer
  secretsCols : List String
  jobsCols : List String
  configs : List (String × Config)
  nextId : Nat
  faults : Faults

/-- An external call performed by a job phase. -/
inductive Event where
  | pullImage (registry image tag : String)
  | containerCreate (id deployment : String)
  | containerStart (id : String)
  | healthCheck (ids : List String) (retries : Nat)
  | containerRemove (id : String)
  | ensureSecretsCol (d : String)
  | ensureJobsCol (d : String)
  | delSecretsCol (d : String)
  | delJobsCol (d : String)
  | delConfig (d : String)
  deriving Repr, DecidableEq

/-- Sequencing of two fallible, event-producing steps: on error the first
step's outcome is returned unchanged (Go's `return err`), on success the
second step runs on the updated world and the event logs concatenate. -/
def seqE {α β : Type} (x : Except String α × World × List Event)
    (f : α → World → Except String β × World × List Event) :
    Except String β × World × List Event :=
  match x with
  | (Except.error e, w, es) => (Except.error e, w, es)
  | (Except.ok a, w, es) =>
    match f a w with
    | (r, w', es') => (r, w', es ++ es')

/-- Container IDs assigned by the runtime to newly created containers. -/
def mkContainerId (k : Nat) : String := "c-" ++ toString k

/-- Listing the containers of a deployment
(`GetContainersByDeployment`): the host's containers whose
`deployment.name` label matches. -/
def GetContainersByDeployment (d : String) (w : World) : List KraneContainer :=
  w.containers.filter fun c => c.Deployment == d

/-- `ContainerCreate(config)`: creates (without starting) one container
for the config's deployment, with a fresh runtime ID. -/
def ContainerCreate (cfg : Config) (w : World) :
    Except String KraneContainer × World × List Event :=
  let ev := Event.containerCreate (mkContainerId w.nextId) cfg.Name
  if w.faults.createFails w.nextId then (Except.error "unable to create container", w, [ev])
  else
    let c : KraneContainer :=
      { ID := mkContainerId w.nextId, Deployment := cfg.Name, Status := "created" }
    (Except.ok c,
     { w with containers := w.containers ++ [c], nextId := w.nextId + 1 }, [ev])

/-- `c.Start()`: starts the container with that ID. -/
def startContainer (c : KraneContainer) (w : World) :
    Except String Unit × World × List Event :=
  if w.faults.startFails c.ID then (Except.error "unable to start container", w, [Event.containerStart c.ID])
  else
    (Except.ok (),
     { w with containers :=
        w.containers.map fun x => if x.ID == c.ID then { x with Status := "running" } else x },
     [Event.containerStart c.ID])

/-- `c.Remove()`: removes the container with that ID from the host. -/
def removeContainer (c : KraneContainer) (w : World) :
    Except String Unit × World × List Event :=
  if w.faults.removeFails c.ID then (Except.error "unable to remove container", w, [Event.containerRemove c.ID])
  else
    (Except.ok (),
     { w with containers := w.containers.filter fun x => !(x.ID == c.ID) },
     [Event.containerRemove c.ID])

/-- `CreateSecretsCollection`: ensures the per-deployment secrets
collection exists. -/
def CreateSecretsCollection (d : String) (w : World) :
    Except String Unit × World × List Event :=
  if w.faults.createSecretsFails then
    (Except.error "unable to create secrets collection", w, [Event.ensureSecretsCol d])
  else
    (Except.ok (),
     { w with secretsCols := if d ∈ w.secretsCols then w.secretsCols else w.secretsCols ++ [d] },
     [Event.ensureSecretsCol d])

/-- `CreateJobsCollection`: ensures the per-deployment jobs collection
exists. -/
def CreateJobsCollection (d : String) (w : World) :
    Except String Unit × World × List Event :=
  if w.faults.createJobsFails then
    (Except.error "unable to create jobs collection", w, [Event.ensureJobsCol d])
  else
    (Except.ok (),
     { w with jobsCols := if d ∈ w.jobsCols then w.jobsCols else w.jobsCols ++ [d] },
     [Event.ensureJobsCol d])

/-- `DeleteSecretsCollection`: deletes the per-deployment secrets
collection. -/
def DeleteSecretsCollection (d : String) (w : World) :
    Except String Unit × World × List Event :=
  if w.faults.delSecretsFails then
    (Except.error "unable to remove secrets collection", w, [Event.delSecretsCol d])
  else
    (Except.ok (), { w with secretsCols := w.secretsCols.filter fun x => !(x == d) },
     [Event.delSecretsCol d])

/-- `DeleteJobsCollection`: deletes the per-deployment jobs collection. -/
def DeleteJobsCollection (d : String) (w : World) :
    Except String Unit × World × List Event :=
  if w.faults.delJobsFails then
    (Except.error "unable to remove jobs collection", w, [Event.delJobsCol d])
  else
    (Except.ok (), { w with jobsCols := w.jobsCols.filter fun x => !(x == d) },
     [Event.delJobsCol d])

/-- `DeleteDeploymentConfig`: deletes the stored config of the
deployment. -/
def DeleteDeploymentConfig (d : String) (w : World) :
    Except String Unit × World × List Event :=
  if w.faults.delConfigFails then
    (Except.error "unable to remove deployment configuration", w, [Event.delConfig d])
  else
    (Except.ok (), { w with configs := w.configs.filter fun p => !(p.1 == d) },
     [Event.delConfig d])

/-- `docker.GetClient().PullImage(registry, image, tag)` as used by the
Run job's run phase. -/
def pullImage (cfg : Config) (w : World) : Except String Unit × World × List Event :=
  let ev := Event.pullImage cfg.Registry cfg.Image cfg.Tag
  if w.faults.pullFails then (Except.error "unable to pull image", w, [ev])
  else (Except.ok (), w, [ev])

/-- `RetriableContainerHealthCheck(containers, retries)`.  Its body (the
per-container linear-backoff retry loop) is the `checkNewContainersHealth`
loop of the service workflow — the one implementation of the retriable
check present in the sources; each container's probe outcomes come from
the injected faults.  The world is unchanged. -/
def RetriableContainerHealthCheck (cs : List KraneContainer) (retries : Nat) (w : World) :
    Except String Unit × World × List Event :=
  let ev := Event.healthCheck (cs.map fun c => c.ID) retries
  match (Service.checkNewContainersHealth (cs.map fun c => w.faults.probe c.ID) retries).1 with
  | Except.error e => (Except.error e, w, [ev])
  | Except.ok _ => (Except.ok (), w, [ev])

/-- The create loop of the Run/Restart run phase:
`for i := 0; i < config.Scale; i++ { ContainerCreate(config) }`,
accumulating the created containers and aborting on the first error. -/
def createLoop (cfg : Config) : Nat → World → Except String (List KraneContainer) × World × List Event
  | 0, w => (Except.ok [], w, [])
  | n + 1, w =>
    seqE (ContainerCreate cfg w) fun c w1 =>
      seqE (createLoop cfg n w1) fun cs w2 =>
        (Except.ok (c :: cs), w2, [])

/-- The start loop of the Run/Restart run phase: start each created
container, aborting on the first error. -/
def startLoop : List KraneContainer → World → Except String Unit × World × List Event
  | [], w => (Except.ok (), w, [])
  | c :: cs, w => seqE (startContainer c w) fun _ w1 => startLoop cs w1

/-- The removal loop of the Finally phases: remove each snapshotted
container, aborting on the first error. -/
def removeLoop : List KraneContainer → World → Except String Unit × World × List Event
  | [], w => (Except.ok (), w, [])
  | c :: cs, w => seqE (removeContainer c w) fun _ w1 => removeLoop cs w1

/-- Setup phase of the Run job: ensure the secrets and jobs collections,
then snapshot the deployment's current containers into
`ContainersToRemove`. -/
def runPhaseSetup (cfg : Config) (w : World) :
    Except String (List KraneContainer) × World × List Event :=
  seqE (CreateSecretsCollection cfg.Name w) fun _ w1 =>
    seqE (CreateJobsCollection cfg.Name w1) fun _ w2 =>
      (Except.ok (GetContainersByDeployment cfg.Name w2), w2, [])

/-- Run phase of the Run job: pull the image, create `Scale` containers,
start each, then run the retriable health check (with `retries := 10`) on
the started set. -/
def runPhaseRun (cfg : Config) (w : World) : Except String Unit × World × List Event :=
  seqE (pullImage cfg w) fun _ w1 =>
    seqE (createLoop cfg cfg.Scale.toNat w1) fun created w2 =>
      seqE (startLoop created w2) fun _ w3 =>
        RetriableContainerHealthCheck created 10 w3

/-- Finally phase of the Run job: remove every snapshotted container. -/
def runPhaseFinally (toRemove : List KraneContainer) (w : World) :
    Except String Unit × World × List Event :=
  removeLoop toRemove w

/-- The Run job end to end.  The worker executes setup, then run, then
(on success) finally; the phase bodies are the closures of `Run` in
`deployment.go`, the setup→run→finally sequencing is the job worker's
contract from the spec (§4.6). -/
def RunJob (cfg : Config) (w : World) : Except String Unit × World × List Event :=
  seqE (runPhaseSetup cfg w) fun snapshot w1 =>
    seqE (runPhaseRun cfg w1) fun _ w2 =>
      runPhaseFinally snapshot w2

/-- Run phase of the Delete job: list the deployment's containers and
remove each. -/
def deletePhaseRun (d : String) (w : World) : Except String Unit × World × List Event :=
  removeLoop (GetContainersByDeployment d w) w

/-- Finally phase of the Delete job: delete the secrets collection, then
the jobs collection, then the deployment config, aborting on the first
error. -/
def deletePhaseFinally (d : String) (w : World) : Except String Unit × World × List Event :=
  seqE (DeleteSecretsCollection d w) fun _ w1 =>
    seqE (DeleteJobsCollection d w1) fun _ w2 =>
      DeleteDeploymentConfig d w2

/-- Setup phase of the Restart job: snapshot the deployment's current
containers into `ContainersToRemove`.  No collections are ensured and no
image is pulled. -/
def restartPhaseSetup (cfg : Config) (w : World) :
    Except String (List KraneContainer) × World × List Event :=
  (Except.ok (GetContainersByDeployment cfg.Name w), w, [])

/-- Run phase of the Restart job: create `Scale` containers from the
existing config, start each, health-check the started set.  There is no
`PullImage` step. -/
def restartPhaseRun (cfg : Config) (w : World) : Except String Unit × World × List Event :=
  seqE (createLoop cfg cfg.Scale.toNat w) fun created w1 =>
    seqE (startLoop created w1) fun _ w2 =>
      RetriableContainerHealthCheck created 10 w2

/-- The Restart job end to end: setup, run, then (on success) removal of
the snapshotted old containers. -/
def RestartJob (cfg : Config) (w : World) : Except String Unit × World × List Event :=
  seqE (restartPhaseSetup cfg w) fun snapshot w1 =>
    seqE (restartPhaseRun cfg w1) fun _ w2 =>
      removeLoop snapshot w2

/-- Freshness of the runtime's container ID counter: no container already
on the host carries an ID the counter may still mint. -/
def FreshIds (w : World) : Prop :=
  ∀ c ∈ w.containers, ∀ k, w.nextId ≤ k → c.ID ≠ mkContainerId k

/-- Combined effect of a start loop over the containers with the given
IDs: a container is marked running when its ID is among them. -/
def setRunningIfMem (ids : List String) (x : KraneContainer) : KraneContainer :=
  if ids.contains x.ID then { x with Status := "running" } else x

/-- Whether an event is an image pull. -/
def Event.isPull : Event → Bool
  | Event.pullImage _ _ _ => true
  | _ => false

end Deployment

/-! ## Reconciler actions, synchronous part (`deployment.go` action
functions and the `enqueue` wrapper)

Each action function validates what it validates, constructs a job and
spawns `go enqueue(job)`.  The spawned call's effect on the queue is
composed into the model (the job lands in the queue, or is dropped when
the queue is full); what matters for the claims is the synchronous return
value seen by the caller and whether/what was enqueued. -/

namespace Reconciler

open Deployment

/-- A queued deployment job (the fields the queue claims need). -/
structure QueuedJob where
  Deployment : String
  type : String
  deriving Repr, DecidableEq

/-- The bounded in-process job queue. -/
structure JobQueue where
  capacity : Nat
  jobs : List QueuedJob
  deriving Repr, DecidableEq

/-- Modelled from the spec: `job.Enqueuer.Enqueue` (the job package is not
among the sources) — appends the job to the bounded FIFO and fails with a
queue-full error when the queue is at capacity (§4.6). -/
def enqueuerEnqueue (q : JobQueue) (j : QueuedJob) : Except String JobQueue :=
  if q.capacity ≤ q.jobs.length then Except.error "queue is full"
  else Except.ok { q with jobs := q.jobs ++ [j] }

/-- The `enqueue` wrapper of `deployment.go`: calls the enqueuer, logs and
swallows any error, returning nothing to its caller. -/
def enqueue (q : JobQueue) (j : QueuedJob) : JobQueue :=
  match enqueuerEnqueue q j with
  | Except.error _ => q
  | Except.ok q' => q'

/-- Modelled from the spec: `GetDeploymentConfig` (`Config.Load`, a thin
Store read of the `deployments` collection, §4.3) — returns the stored
config or a missing-deployment error. -/
def GetDeploymentConfig (configs : List (String × Config)) (d : String) :
    Except String Config :=
  match configs.find? (fun p => p.1 == d) with
  | none => Except.error "deployment configuration not found"
  | some p => Except.ok p.2

/-- Synchronous part of `Run`: load the config (failing synchronously when
it is absent), then `go enqueue` a RUN_DEPLOYMENT job; the enqueue outcome
is not observed by the caller. -/
def Run (configs : List (String × Config)) (q : JobQueue) (d : String) :
    Option String × JobQueue :=
  match GetDeploymentConfig configs d with
  | Except.error e => (some e, q)
  | Except.ok cfg => (none, enqueue q { Deployment := cfg.Name, type := "RUN_DEPLOYMENT" })

/-- Synchronous part of `Delete`: no precondition is checked; a
DELETE_DEPLOYMENT job is `go enqueue`d unconditionally and `nil` is
returned. -/
def Delete (configs : List (String × Config)) (q : JobQueue) (d : String) :
    Option String × JobQueue :=
  (none, enqueue q { Deployment := d, type := "DELETE_DEPLOYMENT" })

/-- Synchronous part of `StartContainers`: enqueue a START_CONTAINERS job
and return `nil`. -/
def StartContainers (q : JobQueue) (d : String) : Option String × JobQueue :=
  (none, enqueue q { Deployment := d, type := "START_CONTAINERS" })

/-- Synchronous part of `StopContainers`: enqueue a STOP_CONTAINERS job
and return `nil`. -/
def StopContainers (q : JobQueue) (d : String) : Option String × JobQueue :=
  (none, enqueue q { Deployment := d, type := "STOP_CONTAINERS" })

/-- Synchronous part of `RestartContainers`: load the config (failing
synchronously when it is absent), then enqueue a RESTART_CONTAINERS
job. -/
def RestartContainers (configs : List (String × Config)) (q : JobQueue) (d : String) :
    Option String × JobQueue :=
  match GetDeploymentConfig configs d with
  | Except.error _ => (some ("unable to get configuration for deployment " ++ d), q)
  | Except.ok _ => (none, enqueue q { Deployment := d, type := "RESTART_CONTAINERS" })

end Reconciler

/-! ## Concrete instances used by witnesses and counterexamples -/

/-- A representative stored config. -/
def cfgW : Config :=
  { Name := "web", Registry := "docker.io", Image := "nginx", Tag := "1.25", Scale := 2 }

/-- Fault injection under which every external call succeeds and every
container probes healthy immediately. -/
def noFaults : Deployment.Faults :=
  { pullFails := false
    createFails := fun _ => false
    startFails := fun _ => false
    probe := fun _ _ => Except.ok true
    removeFails := fun _ => false
    createSecretsFails := false
    createJobsFails := false
    delSecretsFails := false
    delJobsFails := false
    delConfigFails := false }

/-- A fresh world: no containers, no collections, the config of `cfgW`
stored, all calls succeeding. -/
def wW : Deployment.World :=
  { containers := []
    secretsCols := []
    jobsCols := []
    configs := [("web", cfgW)]
    nextId := 0
    faults := noFaults }

/-- World for the Delete-finalize counterexample: collections and config
present, and the secrets-collection deletion failing. -/
def wC3 : Deployment.World :=
  { containers := []
    secretsCols := ["web"]
    jobsCols := ["web"]
    configs := [("web", cfgW)]
    nextId := 0
    faults := { noFaults with delSecretsFails := true } }

/-- A docker client oracle whose every call succeeds. -/
def clientOk : Docker.DockerClient :=
  { imagePull := fun _ => Except.ok ()
    containerCreate := fun _ _ _ name => Except.ok ("id-" ++ name)
    containerStart := fun _ => Except.ok ()
    networkConnect := fun _ _ => Except.ok ()
    containerStop := fun _ _ => Except.ok ()
    containerRemove := fun _ => Except.ok ()
    containerList := Except.ok []
    containerStats := fun _ _ => Except.ok "stats"
    networkListErr := none
    networkCreateErr := none
    imageRemove := fun _ => Except.ok []
    containerLogs := fun _ => Except.ok "" }

/-- A docker host with no networks yet. -/
def hostW : Docker.DockerHost := { networks := [], nextNetId := 0 }

/-- A job queue that is already full (capacity zero). -/
def qFull : Reconciler.JobQueue := { capacity := 0, jobs := [] }

/-- An empty job queue with room. -/
def qEmpty : Reconciler.JobQueue := { capacity := 8, jobs := [] }

/-- A probe that reports unhealthy on attempt 0 and healthy from attempt 1
on. -/
def probeLateHealthy : Nat → Except String Bool :=
  fun i => if i == 0 then Except.ok false else Except.ok true

/-- A probe that reports healthy immediately. -/
def probeHealthy : Nat → Except String Bool := fun _ => Except.ok true

/-!
## Theorems

Helper lemmas first, then one theorem per claim (with witnesses and
counterexamples where they apply).
-/

namespace Deployment

/-- Forward decomposition of a successful `seqE`: both steps succeeded and
the event logs concatenate. -/
theorem seqE_ok {α β : Type} {x : Except String α × World × List Event}
    {f : α → World → Except String β × World × List Event}
    {b : β} {w' : World} {es : List Event}
    (hyp : seqE x f = (Except.ok b, w', es)) :
    ∃ a w1 es1 es2, x = (Except.ok a, w1, es1)
      ∧ f a w1 = (Except.ok b, w', es2) ∧ es = es1 ++ es2 := by
  obtain ⟨r, w0, es0⟩ := x
  cases r with
  | error e => simp [seqE] at hyp
  | ok a =>
    rcases hf : f a w0 with ⟨rf, wf, esf⟩
    simp only [seqE, hf, Prod.mk.injEq] at hyp
    obtain ⟨h1, h2, h3⟩ := hyp
    exact ⟨a, w0, es0, esf, rfl, by rw [hf, h1, h2], h3.symm⟩

/-- Every event of a `seqE` composition comes from the first step or from
the second step run on the first step's world. -/
theorem seqE_events_sub {α β : Type} (x : Except String α × World × List Event)
    (f : α → World → Except String β × World × List Event) :
    ∀ e ∈ (seqE x f).2.2, e ∈ x.2.2 ∨ ∃ a, e ∈ (f a x.2.1).2.2 := by
  obtain ⟨r, w0, es0⟩ := x
  cases r with
  | error e0 => intro e he; exact Or.inl he
  | ok a =>
    intro e he
    rcases hf : f a w0 with ⟨rf, wf, esf⟩
    rw [show seqE (Except.ok a, w0, es0) f = (rf, wf, es0 ++ esf) from by rw [seqE, hf]] at he
    rcases List.mem_append.mp he with h | h
    · exact Or.inl h
    · exact Or.inr ⟨a, by rw [hf]; exact h⟩

/-- The events of `ContainerCreate` are a single create call, whatever
the outcome. -/
theorem containerCreate_events (cfg : Config) (w : World) :
    (ContainerCreate cfg w).2.2
      = [Event.containerCreate (mkContainerId w.nextId) cfg.Name] := by
  by_cases hf : w.faults.createFails w.nextId <;> simp [ContainerCreate, hf]

/-- The events of `startContainer` are a single start call. -/
theorem startContainer_events (c : KraneContainer) (w : World) :
    (startContainer c w).2.2 = [Event.containerStart c.ID] := by
  by_cases hf : w.faults.startFails c.ID <;> simp [startContainer, hf]

/-- The events of `removeContainer` are a single remove call. -/
theorem removeContainer_events (c : KraneContainer) (w : World) :
    (removeContainer c w).2.2 = [Event.containerRemove c.ID] := by
  by_cases hf : w.faults.removeFails c.ID <;> simp [removeContainer, hf]

/-- `pullImage` leaves the world unchanged and logs one pull call,
whatever the outcome. -/
theorem pullImage_parts (cfg : Config) (w : World) :
    (pullImage cfg w).2.1 = w
    ∧ (pullImage cfg w).2.2 = [Event.pullImage cfg.Registry cfg.Image cfg.Tag] := by
  by_cases hf : w.faults.pullFails <;> simp [pullImage, hf]

/-- `RetriableContainerHealthCheck` leaves the world unchanged and logs
one health-check call on the probed set, whatever the outcome. -/
theorem health_parts (cs : List KraneContainer) (retries : Nat) (w : World) :
    (RetriableContainerHealthCheck cs retries w).2.1 = w
    ∧ (RetriableContainerHealthCheck cs retries w).2.2
        = [Event.healthCheck (cs.map fun c => c.ID) retries] := by
  rcases h : (Service.checkNewContainersHealth (cs.map fun c => w.faults.probe c.ID) retries).1
    with e | u <;> simp [RetriableContainerHealthCheck, h]

/-- A successful `ContainerCreate`: the new container carries the fresh
ID and the deployment name, is appended to the host, the counter
advances, and one create call is logged. -/
theorem containerCreate_ok {cfg : Config} {w : World} {c : KraneContainer}
    {w1 : World} {es1 : List Event}
    (h : ContainerCreate cfg w = (Except.ok c, w1, es1)) :
    c = { ID := mkContainerId w.nextId, Deployment := cfg.Name, Status := "created" }
    ∧ w1.containers = w.containers ++ [c]
    ∧ w1.nextId = w.nextId + 1
    ∧ w1.secretsCols = w.secretsCols ∧ w1.jobsCols = w.jobsCols
    ∧ w1.configs = w.configs ∧ w1.faults = w.faults
    ∧ es1 = [Event.containerCreate c.ID cfg.Name] := by
  by_cases hf : w.faults.createFails w.nextId
  · rw [ContainerCreate, if_pos hf] at h
    exact absurd h (by simp)
  · rw [ContainerCreate, if_neg hf] at h
    simp only [Prod.mk.injEq, Except.ok.injEq] at h
    obtain ⟨hc, hw1, hes⟩ := h
    subst hc; subst hw1; subst hes
    exact ⟨rfl, rfl, rfl, rfl, rfl, rfl, rfl, rfl⟩

/-- A successful create loop: the created containers are `n` fresh
containers of the deployment in counter order, appended to the host, and
the events are their create calls. -/
theorem createLoop_ok (cfg : Config) :
    ∀ (n : Nat) (w : World) (created : List KraneContainer)
      (w' : World) (es : List Event),
      createLoop cfg n w = (Except.ok created, w', es) →
      created = (List.range n).map (fun j =>
          { ID := mkContainerId (w.nextId + j), Deployment := cfg.Name,
            Status := "created" })
      ∧ w'.containers = w.containers ++ created
      ∧ w'.nextId = w.nextId + n
      ∧ w'.secretsCols = w.secretsCols ∧ w'.jobsCols = w.jobsCols
      ∧ w'.configs = w.configs ∧ w'.faults = w.faults
      ∧ es = created.map fun c => Event.containerCreate c.ID cfg.Name := by
  intro n
  induction n with
  | zero =>
    intro w created w' es hyp
    simp only [createLoop, Prod.mk.injEq, Except.ok.injEq] at hyp
    obtain ⟨h1, h2, h3⟩ := hyp
    subst h1; subst h2; subst h3
    simp
  | succ n ih =>
    intro w created w' es hyp
    simp only [createLoop] at hyp
    obtain ⟨c, w1, es1, es2, hcc, hrest, hes⟩ := seqE_ok hyp
    obtain ⟨hc, h1c, h1n, h1s, h1j, h1cfg, h1f, h1es⟩ := containerCreate_ok hcc
    obtain ⟨cs, w2, es3, es4, hloop, hfin, hes2⟩ := seqE_ok hrest
    simp only [Prod.mk.injEq, Except.ok.injEq] at hfin
    obtain ⟨hcreated, hw', hes4⟩ := hfin
    obtain ⟨ih1, ih2, ih3, ih4, ih5, ih6, ih7, ih8⟩ := ih w1 cs w2 es3 hloop
    subst hcreated
    subst hw'
    have hcs : cs = (List.range n).map
        ((fun j => ({ ID := mkContainerId (w.nextId + j),
                      Deployment := cfg.Name,
                      Status := "created" } : KraneContainer)) ∘ Nat.succ) := by
      rw [ih1]
      apply List.map_congr_left
      intro j hj
      simp only [Function.comp_apply, Nat.succ_eq_add_one]
      rw [h1n, show w.nextId + 1 + j = w.nextId + (j + 1) from by omega]
    refine ⟨?_, ?_, ?_, by rw [ih4, h1s], by rw [ih5, h1j],
            by rw [ih6, h1cfg], by rw [ih7, h1f], ?_⟩
    · rw [List.range_succ_eq_map, List.map_cons, List.map_map, ← hcs, hc]
      simp
    · rw [ih2, h1c, List.append_assoc]
      rfl
    · rw [ih3, h1n]
      omega
    · rw [hes, hes2, h1es, ih8, ← hes4]
      simp

/-- A successful `startContainer`: the matching container is marked
running, nothing else changes, one start call is logged. -/
theorem startContainer_ok {c : KraneContainer} {w w1 : World} {es1 : List Event}
    (h : startContainer c w = (Except.ok (), w1, es1)) :
    w1.containers = w.containers.map
        (fun x => if x.ID == c.ID then { x with Status := "running" } else x)
    ∧ w1.nextId = w.nextId ∧ w1.secretsCols = w.secretsCols ∧ w1.jobsCols = w.jobsCols
    ∧ w1.configs = w.configs ∧ w1.faults = w.faults
    ∧ es1 = [Event.containerStart c.ID] := by
  by_cases hf : w.faults.startFails c.ID
  · rw [startContainer, if_pos hf] at h
    exact absurd h (by simp)
  · rw [startContainer, if_neg hf] at h
    simp only [Prod.mk.injEq, Except.ok.injEq] at h
    obtain ⟨-, hw1, hes⟩ := h
    subst hw1; subst hes
    exact ⟨rfl, rfl, rfl, rfl, rfl, rfl, rfl⟩

/-- Folding one start step into the membership-based running update. -/
theorem setRunning_step (s : String) (ids : List String) (x : KraneContainer) :
    setRunningIfMem ids (if x.ID == s then { x with Status := "running" } else x)
      = setRunningIfMem (s :: ids) x := by
  by_cases hx : x.ID = s
  · have hbeq : (x.ID == s) = true := by simp [hx]
    rw [if_pos hbeq]
    cases h2 : ids.contains x.ID <;>
      simp [setRunningIfMem, List.contains_cons, hbeq, h2, hx]
  · have hbeq : (x.ID == s) = false := by simp [hx]
    rw [if_neg (by simp [hbeq])]
    simp [setRunningIfMem, List.contains_cons, hbeq, hx]

/-- A successful start loop marks exactly the containers with the
started IDs as running, and logs one start call per container. -/
theorem startLoop_ok :
    ∀ (cs : List KraneContainer) (w w' : World) (es : List Event),
      startLoop cs w = (Except.ok (), w', es) →
      w'.containers = w.containers.map (setRunningIfMem (cs.map fun c => c.ID))
      ∧ w'.nextId = w.nextId ∧ w'.secretsCols = w.secretsCols ∧ w'.jobsCols = w.jobsCols
      ∧ w'.configs = w.configs ∧ w'.faults = w.faults
      ∧ es = cs.map fun c => Event.containerStart c.ID := by
  intro cs
  induction cs with
  | nil =>
    intro w w' es hyp
    simp only [startLoop, Prod.mk.injEq] at hyp
    obtain ⟨-, h2, h3⟩ := hyp
    subst h2; subst h3
    have hid : ∀ x, setRunningIfMem ([] : List String) x = x := by
      intro x; simp [setRunningIfMem]
    refine ⟨?_, rfl, rfl, rfl, rfl, rfl, by simp⟩
    simp only [List.map_nil]
    rw [show setRunningIfMem ([] : List String) = fun x => x from funext hid]
    simp
  | cons c rest ih =>
    intro w w' es hyp
    simp only [startLoop] at hyp
    obtain ⟨a, w1, es1, es2, hsc, hrest, hes⟩ := seqE_ok hyp
    obtain ⟨h1c, h1n, h1s, h1j, h1cfg, h1f, h1es⟩ := startContainer_ok hsc
    obtain ⟨ih1, ih2, ih3, ih4, ih5, ih6, ih7⟩ := ih w1 w' es2 hrest
    refine ⟨?_, by rw [ih2, h1n], by rw [ih3, h1s], by rw [ih4, h1j],
            by rw [ih5, h1cfg], by rw [ih6, h1f], ?_⟩
    · rw [ih1, h1c, List.map_map]
      apply List.map_congr_left
      intro x hx
      simp only [Function.comp_apply]
      exact setRunning_step c.ID (rest.map fun c => c.ID) x
    · rw [hes, h1es, ih7]
      simp

/-- A successful `removeContainer`: the matching container disappears,
nothing else changes, one remove call is logged. -/
theorem removeContainer_ok {c : KraneContainer} {w w1 : World} {es1 : List Event}
    (h : removeContainer c w = (Except.ok (), w1, es1)) :
    w1.containers = w.containers.filter (fun x => !(x.ID == c.ID))
    ∧ w1.nextId = w.nextId ∧ w1.secretsCols = w.secretsCols ∧ w1.jobsCols = w.jobsCols
    ∧ w1.configs = w.configs ∧ w1.faults = w.faults
    ∧ es1 = [Event.containerRemove c.ID] := by
  by_cases hf : w.faults.removeFails c.ID
  · rw [removeContainer, if_pos hf] at h
    exact absurd h (by simp)
  · rw [removeContainer, if_neg hf] at h
    simp only [Prod.mk.injEq, Except.ok.injEq] at h
    obtain ⟨-, hw1, hes⟩ := h
    subst hw1; subst hes
    exact ⟨rfl, rfl, rfl, rfl, rfl, rfl, rfl⟩

/-- A successful remove loop removes exactly the containers with the
snapshotted IDs, and logs one remove call per container. -/
theorem removeLoop_ok :
    ∀ (cs : List KraneContainer) (w w' : World) (es : List Event),
      removeLoop cs w = (Except.ok (), w', es) →
      w'.containers = w.containers.filter
          (fun x => !((cs.map fun c => c.ID).contains x.ID))
      ∧ w'.nextId = w.nextId ∧ w'.secretsCols = w.secretsCols ∧ w'.jobsCols = w.jobsCols
      ∧ w'.configs = w.configs ∧ w'.faults = w.faults
      ∧ es = cs.map fun c => Event.containerRemove c.ID := by
  intro cs
  induction cs with
  | nil =>
    intro w w' es hyp
    simp only [removeLoop, Prod.mk.injEq] at hyp
    obtain ⟨-, h2, h3⟩ := hyp
    subst h2; subst h3
    refine ⟨by simp, rfl, rfl, rfl, rfl, rfl, by simp⟩
  | cons c rest ih =>
    intro w w' es hyp
    simp only [removeLoop] at hyp
    obtain ⟨a, w1, es1, es2, hrc, hrest, hes⟩ := seqE_ok hyp
    obtain ⟨h1c, h1n, h1s, h1j, h1cfg, h1f, h1es⟩ := removeContainer_ok hrc
    obtain ⟨ih1, ih2, ih3, ih4, ih5, ih6, ih7⟩ := ih w1 w' es2 hrest
    refine ⟨?_, by rw [ih2, h1n], by rw [ih3, h1s], by rw [ih4, h1j],
            by rw [ih5, h1cfg], by rw [ih6, h1f], ?_⟩
    · rw [ih1, h1c, List.filter_filter]
      apply List.filter_congr
      intro x hx
      by_cases hxy : x.ID = c.ID <;>
        simp [hxy, List.contains_cons, Bool.not_or, Bool.and_comm]
    · rw [hes, h1es, ih7]
      simp

/-- A successful `CreateSecretsCollection` leaves containers, counter,
configs and faults unchanged. -/
theorem createSecretsCollection_ok {d : String} {w : World} {a : Unit}
    {w1 : World} {es1 : List Event}
    (h : CreateSecretsCollection d w = (Except.ok a, w1, es1)) :
    w1.containers = w.containers ∧ w1.nextId = w.nextId
    ∧ w1.configs = w.configs ∧ w1.faults = w.faults := by
  by_cases hf : w.faults.createSecretsFails
  · rw [CreateSecretsCollection, if_pos hf] at h
    exact absurd h (by simp)
  · rw [CreateSecretsCollection, if_neg hf] at h
    simp only [Prod.mk.injEq, Except.ok.injEq] at h
    obtain ⟨-, hw1, -⟩ := h
    subst hw1
    exact ⟨rfl, rfl, rfl, rfl⟩

/-- A successful `CreateJobsCollection` leaves containers, counter,
configs and faults unchanged. -/
theorem createJobsCollection_ok {d : String} {w : World} {a : Unit}
    {w1 : World} {es1 : List Event}
    (h : CreateJobsCollection d w = (Except.ok a, w1, es1)) :
    w1.containers = w.containers ∧ w1.nextId = w.nextId
    ∧ w1.configs = w.configs ∧ w1.faults = w.faults := by
  by_cases hf : w.faults.createJobsFails
  · rw [CreateJobsCollection, if_pos hf] at h
    exact absurd h (by simp)
  · rw [CreateJobsCollection, if_neg hf] at h
    simp only [Prod.mk.injEq, Except.ok.injEq] at h
    obtain ⟨-, hw1, -⟩ := h
    subst hw1
    exact ⟨rfl, rfl, rfl, rfl⟩

/-- A successful Run setup snapshots exactly the deployment's current
containers and leaves containers, counter, configs and faults
untouched. -/
theorem runPhaseSetup_ok {cfg : Config} {w : World} {snap : List KraneContainer}
    {w1 : World} {es1 : List Event}
    (h : runPhaseSetup cfg w = (Except.ok snap, w1, es1)) :
    snap = GetContainersByDeployment cfg.Name w
    ∧ w1.containers = w.containers ∧ w1.nextId = w.nextId
    ∧ w1.configs = w.configs ∧ w1.faults = w.faults := by
  simp only [runPhaseSetup] at h
  obtain ⟨a, wa, esa, esb, hsec, hrest, hesx⟩ := seqE_ok h
  obtain ⟨b, wb, esc, esd, hjobs, hfin, hesy⟩ := seqE_ok hrest
  obtain ⟨hac, han, hacfg, haf⟩ := createSecretsCollection_ok hsec
  obtain ⟨hbc, hbn, hbcfg, hbf⟩ := createJobsCollection_ok hjobs
  simp only [Prod.mk.injEq, Except.ok.injEq] at hfin
  obtain ⟨hsnap, hw1, -⟩ := hfin
  subst hw1
  refine ⟨?_, by rw [hbc, hac], by rw [hbn, han], by rw [hbcfg, hacfg], by rw [hbf, haf]⟩
  rw [← hsnap]
  show GetContainersByDeployment cfg.Name wb = GetContainersByDeployment cfg.Name w
  simp only [GetContainersByDeployment]
  rw [hbc, hac]

/-- No event of a create loop is an image pull. -/
theorem createLoop_no_pull (cfg : Config) :
    ∀ (n : Nat) (w : World) (e : Event), e ∈ (createLoop cfg n w).2.2 → e.isPull = false := by
  intro n
  induction n with
  | zero => intro w e he; simp [createLoop] at he
  | succ n ih =>
    intro w e he
    simp only [createLoop] at he
    rcases seqE_events_sub _ _ e he with h | ⟨c, h⟩
    · rw [containerCreate_events] at h
      rw [List.mem_singleton.mp h]
      rfl
    · rcases seqE_events_sub _ _ e h with h2 | ⟨cs, h2⟩
      · exact ih _ e h2
      · simp at h2

/-- No event of a start loop is an image pull. -/
theorem startLoop_no_pull :
    ∀ (cs : List KraneContainer) (w : World) (e : Event),
      e ∈ (startLoop cs w).2.2 → e.isPull = false := by
  intro cs
  induction cs with
  | nil => intro w e he; simp [startLoop] at he
  | cons c rest ih =>
    intro w e he
    simp only [startLoop] at he
    rcases seqE_events_sub _ _ e he with h | ⟨a, h⟩
    · rw [startContainer_events] at h
      rw [List.mem_singleton.mp h]
      rfl
    · exact ih _ e h

/-- No event of a remove loop is an image pull. -/
theorem removeLoop_no_pull :
    ∀ (cs : List KraneContainer) (w : World) (e : Event),
      e ∈ (removeLoop cs w).2.2 → e.isPull = false := by
  intro cs
  induction cs with
  | nil => intro w e he; simp [removeLoop] at he
  | cons c rest ih =>
    intro w e he
    simp only [removeLoop] at he
    rcases seqE_events_sub _ _ e he with h | ⟨a, h⟩
    · rw [removeContainer_events] at h
      rw [List.mem_singleton.mp h]
      rfl
    · exact ih _ e h

/-- No event of the health check is an image pull. -/
theorem health_no_pull (cs : List KraneContainer) (retries : Nat) (w : World)
    (e : Event) (he : e ∈ (RetriableContainerHealthCheck cs retries w).2.2) :
    e.isPull = false := by
  rw [(health_parts cs retries w).2] at he
  rw [List.mem_singleton.mp he]
  rfl

/-- No event of the Restart run phase is an image pull. -/
theorem restartPhaseRun_no_pull (cfg : Config) (w : World) (e : Event)
    (he : e ∈ (restartPhaseRun cfg w).2.2) : e.isPull = false := by
  simp only [restartPhaseRun] at he
  rcases seqE_events_sub _ _ e he with h | ⟨created, h⟩
  · exact createLoop_no_pull cfg _ _ e h
  · rcases seqE_events_sub _ _ e h with h2 | ⟨a, h2⟩
    · exact startLoop_no_pull _ _ e h2
    · exact health_no_pull _ _ _ e h2

/-- No event of the whole Restart job is an image pull. -/
theorem restartJob_no_pull (cfg : Config) (w : World) (e : Event)
    (he : e ∈ (RestartJob cfg w).2.2) : e.isPull = false := by
  simp only [RestartJob] at he
  rcases seqE_events_sub _ _ e he with h | ⟨snap, h⟩
  · simp [restartPhaseSetup] at h
  · rcases seqE_events_sub _ _ e h with h2 | ⟨a, h2⟩
    · exact restartPhaseRun_no_pull cfg _ e h2
    · exact removeLoop_no_pull _ _ e h2

/-- A successful create/start/health run phase (the Restart run phase,
also the tail of the Run run phase): `Scale.toNat` fresh containers are
created in order, started, and health-checked, with the matching event
trace. -/
theorem restartPhaseRun_ok (cfg : Config) (w : World) {w' : World} {es : List Event}
    (h : restartPhaseRun cfg w = (Except.ok (), w', es)) :
    ∃ created : List KraneContainer,
      created = (List.range cfg.Scale.toNat).map (fun j =>
          { ID := mkContainerId (w.nextId + j), Deployment := cfg.Name,
            Status := "created" })
      ∧ w'.containers = (w.containers ++ created).map
          (setRunningIfMem (created.map fun c => c.ID))
      ∧ w'.nextId = w.nextId + cfg.Scale.toNat
      ∧ w'.secretsCols = w.secretsCols ∧ w'.jobsCols = w.jobsCols
      ∧ w'.configs = w.configs ∧ w'.faults = w.faults
      ∧ es = (created.map fun c => Event.containerCreate c.ID cfg.Name)
          ++ (created.map fun c => Event.containerStart c.ID)
          ++ [Event.healthCheck (created.map fun c => c.ID) 10] := by
  simp only [restartPhaseRun] at h
  obtain ⟨created, w2, esC, esT, hloop, hrest, hes⟩ := seqE_ok h
  obtain ⟨hcr, h2c, h2n, h2s, h2j, h2cfg, h2f, h2es⟩ := createLoop_ok cfg _ _ _ _ _ hloop
  obtain ⟨a, w3, esS, esH, hstart, hhealth, hes2⟩ := seqE_ok hrest
  obtain ⟨h3c, h3n, h3s, h3j, h3cfg, h3f, h3es⟩ := startLoop_ok _ _ _ _ hstart
  have hhp := health_parts created 10 w3
  rw [hhealth] at hhp
  replace hhp : w' = w3
      ∧ esH = [Event.healthCheck (created.map fun c => c.ID) 10] := hhp
  refine ⟨created, hcr, ?_, ?_, ?_, ?_, ?_, ?_, ?_⟩
  · rw [hhp.1, h3c, h2c]
  · rw [hhp.1, h3n, h2n]
  · rw [hhp.1, h3s, h2s]
  · rw [hhp.1, h3j, h2j]
  · rw [hhp.1, h3cfg, h2cfg]
  · rw [hhp.1, h3f, h2f]
  · rw [hes, hes2, h2es, h3es, hhp.2, List.append_assoc]

/-- C1: for a deployment whose stored config has scale `S`, a successful
Run job pulls the image, then creates exactly `S` new containers (one
`ContainerCreate` per `i ∈ [0, S)`), starts each, and health-checks the
new set; after the job (old generation removed in Finally) exactly
`cfg.Scale` containers of the deployment exist and all are running. -/
theorem run_job_converges_to_scale
    (cfg : Config) (w wJ : World) (evs : List Event)
    (hscale : 0 ≤ cfg.Scale)
    (hfresh : FreshIds w)
    (hjob : RunJob cfg w = (Except.ok (), wJ, evs)) :
    (∃ pre ids post, (ids.length : Int) = cfg.Scale
        ∧ evs = pre ++ [Event.pullImage cfg.Registry cfg.Image cfg.Tag]
            ++ ids.map (fun i => Event.containerCreate i cfg.Name)
            ++ ids.map Event.containerStart
            ++ [Event.healthCheck ids 10] ++ post)
    ∧ ((GetContainersByDeployment cfg.Name wJ).length : Int) = cfg.Scale
    ∧ (∀ c ∈ GetContainersByDeployment cfg.Name wJ, c.Status = "running") := by
  simp only [RunJob] at hjob
  obtain ⟨snap, w1, es1, esA, hsetup, hrest, hev⟩ := seqE_ok hjob
  obtain ⟨hsnap, h1c, h1n, h1cfg, h1f⟩ := runPhaseSetup_ok hsetup
  replace hrest : seqE (runPhaseRun cfg w1) (fun _ w2 => runPhaseFinally snap w2)
      = (Except.ok (), wJ, esA) := hrest
  obtain ⟨u, w2, es2, es3, hrun, hfin, hev2⟩ := seqE_ok hrest
  simp only [runPhaseRun] at hrun
  obtain ⟨v, wp, esp, esq, hpull, hrest2, hesp⟩ := seqE_ok hrun
  have hpp := pullImage_parts cfg w1
  rw [hpull] at hpp
  replace hpp : wp = w1 ∧ esp = [Event.pullImage cfg.Registry cfg.Image cfg.Tag] := hpp
  obtain ⟨hwp, hesp2⟩ := hpp
  subst hwp
  replace hrest2 : restartPhaseRun cfg wp = (Except.ok u, w2, esq) := hrest2
  cases u
  obtain ⟨created, hcr, h2c, h2n, h2s, h2j, h2cfg, h2f, h2es⟩ := restartPhaseRun_ok cfg wp hrest2
  rw [h1n] at hcr
  rw [h1c] at h2c
  replace hfin : removeLoop snap w2 = (Except.ok (), wJ, es3) := hfin
  obtain ⟨hJc, hJn, hJs, hJj, hJcfg, hJf, hJes⟩ := removeLoop_ok snap w2 wJ es3 hfin
  have hlen : created.length = cfg.Scale.toNat := by rw [hcr]; simp
  have hsnapsub : ∀ x ∈ snap, x ∈ w.containers := by
    intro x hx
    rw [hsnap] at hx
    simp only [GetContainersByDeployment] at hx
    exact (List.mem_filter.mp hx).1
  have hidsfresh : ∀ x ∈ w.containers,
      ((created.map fun c => c.ID).contains x.ID) = false := by
    intro x hx
    have hnot : x.ID ∉ created.map fun c => c.ID := by
      intro hmem
      obtain ⟨c1, hc1mem, hc1id⟩ := List.mem_map.mp hmem
      rw [hcr] at hc1mem
      obtain ⟨j, hj, hc1eq⟩ := List.mem_map.mp hc1mem
      have hcid : c1.ID = mkContainerId (w.nextId + j) := by rw [← hc1eq]
      exact hfresh x hx (w.nextId + j) (Nat.le_add_right _ _)
        (by rw [← hc1id, hcid])
    simpa using hnot
  have hcontains_self : ∀ c1 ∈ created,
      ((created.map fun c => c.ID).contains c1.ID) = true := by
    intro c1 hmem
    have : c1.ID ∈ created.map fun c => c.ID := List.mem_map_of_mem _ hmem
    simpa using this
  have holdmap : w.containers.map (setRunningIfMem (created.map fun c => c.ID))
      = w.containers := by
    have hpt : ∀ x ∈ w.containers,
        setRunningIfMem (created.map fun c => c.ID) x = x := by
      intro x hx
      simp only [setRunningIfMem, hidsfresh x hx]
      simp
    rw [List.map_congr_left hpt]
    simp
  have hnewmap : created.map (setRunningIfMem (created.map fun c => c.ID))
      = created.map (fun c => { c with Status := "running" }) :=
    List.map_congr_left fun c1 hmem => by
      simp only [setRunningIfMem, hcontains_self c1 hmem]
      simp
  have hremkeep : ∀ y ∈ created.map (fun c => ({ c with Status := "running" } : KraneContainer)),
      (!((snap.map fun c => c.ID).contains y.ID)) = true := by
    intro y hy
    obtain ⟨c1, hc1mem, hc1eq⟩ := List.mem_map.mp hy
    have hyid : y.ID = c1.ID := by rw [← hc1eq]
    have hnot : y.ID ∉ snap.map fun c => c.ID := by
      intro hmem
      obtain ⟨z, hz, hzid⟩ := List.mem_map.mp hmem
      rw [hcr] at hc1mem
      obtain ⟨j, hj, hc1eq2⟩ := List.mem_map.mp hc1mem
      have hcid : c1.ID = mkContainerId (w.nextId + j) := by rw [← hc1eq2]
      exact hfresh z (hsnapsub z hz) (w.nextId + j) (Nat.le_add_right _ _)
        (by rw [hzid, hyid, hcid])
    simpa using hnot
  have hdepnew : ∀ y ∈ created.map (fun c => ({ c with Status := "running" } : KraneContainer)),
      (y.Deployment == cfg.Name) = true := by
    intro y hy
    obtain ⟨c1, hc1mem, hc1eq⟩ := List.mem_map.mp hy
    rw [hcr] at hc1mem
    obtain ⟨j, hj, hc1eq2⟩ := List.mem_map.mp hc1mem
    have hdep : y.Deployment = cfg.Name := by rw [← hc1eq, ← hc1eq2]
    simp [hdep]
  have hfinal : GetContainersByDeployment cfg.Name wJ
      = created.map (fun c => { c with Status := "running" }) := by
    simp only [GetContainersByDeployment]
    rw [hJc, h2c, List.map_append, holdmap, hnewmap, List.filter_append, List.filter_append]
    have hA : (w.containers.filter
          (fun x => !((snap.map fun c => c.ID).contains x.ID))).filter
        (fun c => c.Deployment == cfg.Name) = [] := by
      rw [List.filter_filter, List.filter_eq_nil_iff]
      intro x hx hcontra
      rw [Bool.and_eq_true] at hcontra
      obtain ⟨hdep, hrem⟩ := hcontra
      have hxsnap : x ∈ snap := by
        rw [hsnap]
        simp only [GetContainersByDeployment]
        exact List.mem_filter.mpr ⟨hx, hdep⟩
      have hmem : x.ID ∈ snap.map fun c => c.ID := List.mem_map_of_mem _ hxsnap
      have hct : ((snap.map fun c => c.ID).contains x.ID) = true := by simpa using hmem
      rw [hct] at hrem
      exact absurd hrem (by simp)
    rw [hA, List.filter_eq_self.mpr hremkeep, List.filter_eq_self.mpr hdepnew,
        List.nil_append]
  refine ⟨⟨es1, created.map fun c => c.ID, es3, ?_, ?_⟩, ?_, ?_⟩
  · rw [List.length_map, hlen, Int.toNat_of_nonneg hscale]
  · rw [hev, hev2, hesp, hesp2, h2es]
    simp [List.map_map, List.append_assoc, Function.comp_def]
  · rw [hfinal, List.length_map, hlen, Int.toNat_of_nonneg hscale]
  · intro c hc
    rw [hfinal] at hc
    obtain ⟨c1, -, hceq⟩ := List.mem_map.mp hc
    rw [← hceq]

/-- C1 witness: a fresh world with the two-replica config of `web` stored
and no faults; after the Run job, exactly two containers of `web` exist
and both are running. -/
theorem run_job_converges_to_scale_witness :
    (0 : Int) ≤ cfgW.Scale
    ∧ FreshIds wW
    ∧ ((GetContainersByDeployment "web" (RunJob cfgW wW).2.1).length : Int) = cfgW.Scale
    ∧ (∀ c ∈ GetContainersByDeployment "web" (RunJob cfgW wW).2.1, c.Status = "running") := by
  have hfresh : FreshIds wW := by
    intro c hc
    exact absurd hc (List.not_mem_nil c)
  have h := run_job_converges_to_scale cfgW wW (RunJob cfgW wW).2.1
      (RunJob cfgW wW).2.2 (by decide) hfresh rfl
  exact ⟨by decide, hfresh, h.2.1, h.2.2⟩

/-- C8: the Restart job never pulls an image: no event of any Restart run
is a `PullImage` call; its setup snapshots the deployment's current
containers into `ContainersToRemove`; and its run phase creates exactly
`cfg.Scale` containers from the existing config, starts them, and
health-checks them. -/
theorem restart_never_pulls_image
    (cfg : Config) (w : World) (hscale : 0 ≤ cfg.Scale) :
    (∀ r i t, Event.pullImage r i t ∉ (RestartJob cfg w).2.2)
    ∧ (∀ snap w1 es1, restartPhaseSetup cfg w = (Except.ok snap, w1, es1) →
        snap = GetContainersByDeployment cfg.Name w)
    ∧ (∀ w2 es2, restartPhaseRun cfg w = (Except.ok (), w2, es2) →
        ∃ ids : List String, (ids.length : Int) = cfg.Scale
          ∧ es2 = ids.map (fun i => Event.containerCreate i cfg.Name)
              ++ ids.map Event.containerStart
              ++ [Event.healthCheck ids 10]) := by
  refine ⟨?_, ?_, ?_⟩
  · intro r i t hmem
    have := restartJob_no_pull cfg w _ hmem
    simp [Event.isPull] at this
  · intro snap w1 es1 h
    simp only [restartPhaseSetup, Prod.mk.injEq, Except.ok.injEq] at h
    exact h.1.symm
  · intro w2 es2 h
    obtain ⟨created, hcr, -, -, -, -, -, -, hes⟩ := restartPhaseRun_ok cfg w h
    refine ⟨created.map fun c => c.ID, ?_, ?_⟩
    · rw [List.length_map, show created.length = cfg.Scale.toNat from by rw [hcr]; simp,
          Int.toNat_of_nonneg hscale]
    · rw [hes]
      simp [List.map_map, List.append_assoc, Function.comp_def]

/-- C8 witness: the statement at the two-replica config of `web` in the
fresh fault-free world. -/
theorem restart_never_pulls_image_witness :
    (0 : Int) ≤ cfgW.Scale
    ∧ (∀ r i t, Event.pullImage r i t ∉ (RestartJob cfgW wW).2.2) :=
  ⟨by decide, (restart_never_pulls_image cfgW wW (by decide)).1⟩

end Deployment

namespace Service

/-- Characterization of one container's retry loop when run over the
attempt indices `[a, ..., pollRetry]`: some positive number `m` of
attempts is made, the sleeps performed are exactly `10*i` for each
attempted index `i` (consecutive from `a`), and the loop succeeds exactly
when some allowed attempt probes healthy. -/
theorem checkContainerHealth_spec (p : Nat → Except String Bool) (pollRetry : Nat) :
    ∀ (n a : Nat), a + n = pollRetry + 1 → 1 ≤ n →
      ∃ m, 1 ≤ m ∧ m ≤ n
        ∧ (checkContainerHealth p pollRetry (List.range' a n)).2
            = (List.range' a m).map (fun i => 10 * i)
        ∧ ((checkContainerHealth p pollRetry (List.range' a n)).1 = Except.ok ()
            ↔ ∃ i, a ≤ i ∧ i < a + n ∧ p i = Except.ok true) := by
  intro n
  induction n with
  | zero => intro a hsum hpos; exact absurd hpos (by omega)
  | succ n ih =>
    intro a hsum _
    rw [show List.range' a (n + 1) = a :: List.range' (a + 1) n from List.range'_succ a n 1]
    rcases hp : p a with e | b
    · -- probe errored at attempt a
      by_cases ha : a = pollRetry
      · have hn : n = 0 := by omega
        subst hn
        have hred : checkContainerHealth p pollRetry (a :: List.range' (a + 1) 0)
            = (Except.error "container health unstable", [10 * a]) := by
          simp [checkContainerHealth, hp, if_pos ha]
        refine ⟨1, le_refl 1, le_refl 1, ?_, ?_⟩
        · rw [hred]
          simp
        · rw [hred]
          constructor
          · intro h; exact absurd h (by simp)
          · rintro ⟨i, hi1, hi2, hpi⟩
            have hia : i = a := by omega
            subst hia
            rw [hp] at hpi
            exact absurd hpi (by simp)
      · obtain ⟨m, hm1, hmn, hss, hiff⟩ := ih (a + 1) (by omega) (by omega)
        rcases hE : checkContainerHealth p pollRetry (List.range' (a + 1) n) with ⟨r, ss⟩
        rw [hE] at hss hiff
        replace hss : ss = (List.range' (a + 1) m).map (fun i => 10 * i) := hss
        replace hiff : r = Except.ok () ↔ ∃ i, a + 1 ≤ i ∧ i < a + 1 + n ∧ p i = Except.ok true := hiff
        refine ⟨m + 1, by omega, by omega, ?_, ?_⟩
        · simp only [checkContainerHealth, hp, hE, if_neg ha]
          rw [show List.range' a (m + 1) = a :: List.range' (a + 1) m from List.range'_succ a m 1]
          simp [hss]
        · simp only [checkContainerHealth, hp, hE, if_neg ha]
          rw [hiff]
          constructor
          · rintro ⟨i, hi1, hi2, hpi⟩
            exact ⟨i, by omega, by omega, hpi⟩
          · rintro ⟨i, hi1, hi2, hpi⟩
            have hia : i ≠ a := by
              intro h; subst h; rw [hp] at hpi; exact absurd hpi (by simp)
            exact ⟨i, by omega, by omega, hpi⟩
    · cases b with
      | true =>
        refine ⟨1, le_refl 1, by omega, ?_, ?_⟩
        · simp [checkContainerHealth, hp]
        · simp only [checkContainerHealth, hp]
          constructor
          · intro _; exact ⟨a, le_refl a, by omega, hp⟩
          · intro _; trivial
      | false =>
        by_cases ha : a = pollRetry
        · have hn : n = 0 := by omega
          subst hn
          have hred : checkContainerHealth p pollRetry (a :: List.range' (a + 1) 0)
              = (Except.error "container health unstable", [10 * a]) := by
            simp [checkContainerHealth, hp, if_pos ha]
          refine ⟨1, le_refl 1, le_refl 1, ?_, ?_⟩
          · rw [hred]
            simp
          · rw [hred]
            constructor
            · intro h; exact absurd h (by simp)
            · rintro ⟨i, hi1, hi2, hpi⟩
              have hia : i = a := by omega
              subst hia
              rw [hp] at hpi
              exact absurd hpi (by simp)
        · obtain ⟨m, hm1, hmn, hss, hiff⟩ := ih (a + 1) (by omega) (by omega)
          rcases hE : checkContainerHealth p pollRetry (List.range' (a + 1) n) with ⟨r, ss⟩
          rw [hE] at hss hiff
          replace hss : ss = (List.range' (a + 1) m).map (fun i => 10 * i) := hss
          replace hiff : r = Except.ok () ↔ ∃ i, a + 1 ≤ i ∧ i < a + 1 + n ∧ p i = Except.ok true := hiff
          refine ⟨m + 1, by omega, by omega, ?_, ?_⟩
          · simp only [checkContainerHealth, hp, hE, if_neg ha]
            rw [show List.range' a (m + 1) = a :: List.range' (a + 1) m from
                  List.range'_succ a m 1]
            simp [hss]
          · simp only [checkContainerHealth, hp, hE, if_neg ha]
            rw [hiff]
            constructor
            · rintro ⟨i, hi1, hi2, hpi⟩
              exact ⟨i, by omega, by omega, hpi⟩
            · rintro ⟨i, hi1, hi2, hpi⟩
              have hia : i ≠ a := by
                intro h; subst h; rw [hp] at hpi; exact absurd hpi (by simp)
              exact ⟨i, by omega, by omega, hpi⟩

end Service

/-- C2 counterexample: with a retry budget of 1 and a container that is
unhealthy on attempt 0 and healthy on attempt 1, the check succeeds after
making 2 probe attempts (sleeping 0 then 10 seconds) — more than the
`retries` attempts the claim allows per container. -/
theorem health_check_attempt_budget_cx :
    (Service.checkNewContainersHealth [probeLateHealthy] 1).1 = Except.ok ()
    ∧ (Service.checkNewContainersHealth [probeLateHealthy] 1).2 = [[0, 10]]
    ∧ ((Service.checkNewContainersHealth [probeLateHealthy] 1).2.map List.length) = [2]
    ∧ ¬ (2 ≤ 1) :=
  ⟨rfl, rfl, rfl, by omega⟩

/-- C2 amended: the retriable health check probes the containers one
after another (the embedding is the per-container loop folded over the
list); per container it makes between 1 and `retries + 1` probe attempts
(the Go loop bound `i <= pollRetry` is inclusive), sleeping exactly
`10*i` seconds before attempt `i` (so attempt 0 probes immediately); it
fails exactly when some container never reports healthy within its
`retries + 1` allowed attempts. -/
theorem retriable_health_check_linear_backoff
    (probes : List (Nat → Except String Bool)) (retries : Nat) :
    (∀ ss ∈ (Service.checkNewContainersHealth probes retries).2,
        1 ≤ ss.length ∧ ss.length ≤ retries + 1
        ∧ ss = (List.range ss.length).map (fun i => 10 * i))
    ∧ ((Service.checkNewContainersHealth probes retries).1 = Except.ok ()
        ↔ ∀ p ∈ probes, ∃ i, i < retries + 1 ∧ p i = Except.ok true) := by
  induction probes with
  | nil => simp [Service.checkNewContainersHealth]
  | cons p rest ih =>
    obtain ⟨m, hm1, hmle, hss, hiff⟩ :=
      Service.checkContainerHealth_spec p retries (retries + 1) 0 (by omega) (by omega)
    rw [← List.range_eq_range'] at hss hiff
    rcases hE : Service.checkContainerHealth p retries (List.range (retries + 1))
      with ⟨r, ss⟩
    rw [hE] at hss hiff
    replace hss : ss = (List.range' 0 m).map (fun i => 10 * i) := hss
    replace hiff : r = Except.ok () ↔ ∃ i, 0 ≤ i ∧ i < 0 + (retries + 1)
        ∧ p i = Except.ok true := hiff
    have hlen : ss.length = m := by rw [hss]; simp
    have hhead : 1 ≤ ss.length ∧ ss.length ≤ retries + 1
        ∧ ss = (List.range ss.length).map (fun i => 10 * i) := by
      refine ⟨by omega, by omega, ?_⟩
      rw [hlen, List.range_eq_range']
      exact hss
    cases r with
    | error e =>
      simp only [Service.checkNewContainersHealth, hE]
      constructor
      · intro ss' hss'
        rcases List.mem_singleton.mp hss' with h
        subst h
        exact hhead
      · constructor
        · intro h; exact absurd h (by simp)
        · intro hall
          obtain ⟨i, hi, hpi⟩ := hall p (List.mem_cons_self p rest)
          have : Except.error e = Except.ok () := hiff.mpr ⟨i, by omega, by omega, hpi⟩
          exact absurd this (by simp)
    | ok u =>
      cases u
      rcases hR : Service.checkNewContainersHealth rest retries with ⟨r2, sss⟩
      rw [hR] at ih
      simp only [Service.checkNewContainersHealth, hE, hR]
      constructor
      · intro ss' hss'
        rcases List.mem_cons.mp hss' with h | h
        · subst h; exact hhead
        · exact ih.1 ss' h
      · rw [List.forall_mem_cons]
        constructor
        · intro h
          refine ⟨?_, ih.2.mp h⟩
          obtain ⟨i, hi1, hi2, hpi⟩ := hiff.mp rfl
          exact ⟨i, by omega, hpi⟩
        · rintro ⟨-, hrest⟩
          exact ih.2.mpr hrest

/-- C2 witness: the amended statement at a single immediately healthy
container with the engine's retry budget of 10. -/
theorem retriable_health_check_linear_backoff_witness :
    (∀ ss ∈ (Service.checkNewContainersHealth [probeHealthy] 10).2,
        1 ≤ ss.length ∧ ss.length ≤ 10 + 1
        ∧ ss = (List.range ss.length).map (fun i => 10 * i))
    ∧ ((Service.checkNewContainersHealth [probeHealthy] 10).1 = Except.ok ()
        ↔ ∀ p ∈ [probeHealthy], ∃ i, i < 10 + 1 ∧ p i = Except.ok true) :=
  retriable_health_check_linear_backoff [probeHealthy] 10

namespace Docker

/-- When some listed network carries the requested name, the first-match
loop returns a network from the list carrying that name. -/
theorem findNetwork_of_mem (l : List NetworkResource) (name : String)
    (h : ∃ n ∈ l, n.Name = name) :
    findNetwork l name ∈ l ∧ (findNetwork l name).Name = name := by
  induction l with
  | nil =>
    obtain ⟨n, hn, _⟩ := h
    exact absurd hn (List.not_mem_nil n)
  | cons x rest ih =>
    by_cases hx : x.Name = name
    · rw [show findNetwork (x :: rest) name = x from by simp [findNetwork, hx]]
      exact ⟨List.mem_cons_self x rest, hx⟩
    · rw [show findNetwork (x :: rest) name = findNetwork rest name from
          by simp [findNetwork, hx]]
      obtain ⟨n, hn, hname⟩ := h
      rcases List.mem_cons.mp hn with rfl | hmem
      · exact absurd hname hx
      · have hih := ih ⟨n, hmem, hname⟩
        exact ⟨List.mem_cons_of_mem x hih.1, hih.2⟩

/-- When no listed network carries the requested name, the loop falls
through to the zero value. -/
theorem findNetwork_of_not_mem (l : List NetworkResource) (name : String)
    (h : ∀ n ∈ l, n.Name ≠ name) :
    findNetwork l name = { Name := "", ID := "" } := by
  induction l with
  | nil => rfl
  | cons x rest ih =>
    have hx : x.Name ≠ name := h x (List.mem_cons_self x rest)
    rw [show findNetwork (x :: rest) name = findNetwork rest name from
        by simp [findNetwork, hx]]
    exact ih fun n hn => h n (List.mem_cons_of_mem x hn)

/-- Appending a network with the requested name to a list with no match
makes it the first match. -/
theorem findNetwork_append (l : List NetworkResource) (name nid : String)
    (h : ∀ n ∈ l, n.Name ≠ name) :
    findNetwork (l ++ [{ Name := name, ID := nid }]) name
      = { Name := name, ID := nid } := by
  induction l with
  | nil => simp [findNetwork]
  | cons x rest ih =>
    have hx : x.Name ≠ name := h x (List.mem_cons_self x rest)
    rw [List.cons_append,
        show findNetwork (x :: (rest ++ [{ Name := name, ID := nid }])) name
          = findNetwork (rest ++ [{ Name := name, ID := nid }]) name from
        by simp [findNetwork, hx]]
    exact ih fun n hn => h n (List.mem_cons_of_mem x hn)

/-- When every listed network has a non-empty ID, an empty ID from the
first-match loop means no listed network carries the name. -/
theorem findNetwork_empty_id (l : List NetworkResource) (name : String)
    (hids : ∀ n ∈ l, n.ID ≠ "")
    (h : (findNetwork l name).ID = "") : ∀ n ∈ l, n.Name ≠ name := by
  intro n hn hname
  have hf := findNetwork_of_mem l name ⟨n, hn, hname⟩
  exact hids _ hf.1 h

/-- IDs minted for new networks are never the empty string (the
empty-ID zero value signals absence in `GetNetworkByName`). -/
theorem mkNetId_ne_empty (k : Nat) : mkNetId k ≠ "" := by
  intro h
  have h2 := congrArg String.length h
  rw [mkNetId, String.length_append] at h2
  have h3 : "net-".length = 4 := rfl
  have h4 : ("" : String).length = 0 := rfl
  omega

end Docker

/-- C9: ensuring the bridge network is idempotent.  With a healthy client
(list and create succeed) and well-formed host state (no listed network
has an empty ID): if a network with the requested name already exists,
`CreateBridgeNetwork` returns that network's ID, changes nothing, and
performs no `NetworkCreate` call; and after any successful call, a second
call with the same name returns the same ID and the same host state, and
when no network with the name existed before, exactly one network with
that name exists afterwards. -/
theorem createBridgeNetwork_idempotent
    (c : Docker.DockerClient) (h : Docker.DockerHost) (name : String)
    (hlist : c.networkListErr = none)
    (hcreate : c.networkCreateErr = none)
    (hids : ∀ n ∈ h.networks, n.ID ≠ "") :
    (∀ net ∈ h.networks, net.Name = name →
        (Docker.CreateBridgeNetwork (some c) h name).1
            = Except.ok ((Docker.findNetwork h.networks name).ID, h)
        ∧ Docker.DockerCall.networkCreate name ∉ (Docker.CreateBridgeNetwork (some c) h name).2)
    ∧ (∀ nid h1, (Docker.CreateBridgeNetwork (some c) h name).1 = Except.ok (nid, h1) →
        (Docker.CreateBridgeNetwork (some c) h1 name).1 = Except.ok (nid, h1)
        ∧ (h.networks.filter (fun n => n.Name == name) = [] →
            (h1.networks.filter (fun n => n.Name == name)).length = 1)) := by
  have hg : Docker.GetNetworkByName (some c) h name
      = (Except.ok (Docker.findNetwork h.networks name), [Docker.DockerCall.networkList]) := by
    simp [Docker.GetNetworkByName, hlist]
  by_cases hid : (Docker.findNetwork h.networks name).ID = ""
  · -- no existing network with that name: one is created
    have hno : ∀ n ∈ h.networks, n.Name ≠ name :=
      Docker.findNetwork_empty_id h.networks name hids hid
    have hc1 : Docker.CreateBridgeNetwork (some c) h name
        = (Except.ok (Docker.mkNetId h.nextNetId,
            { networks := h.networks
                ++ [{ Name := name, ID := Docker.mkNetId h.nextNetId }],
              nextNetId := h.nextNetId + 1 }),
           [Docker.DockerCall.networkList, Docker.DockerCall.networkCreate name]) := by
      simp [Docker.CreateBridgeNetwork, hg, hid, hcreate]
    constructor
    · intro net hnet hname
      exact absurd hname (hno net hnet)
    · intro nid h1 heq
      rw [hc1] at heq
      replace heq : Except.ok (α := String × Docker.DockerHost)
          (Docker.mkNetId h.nextNetId,
            { networks := h.networks
                ++ [{ Name := name, ID := Docker.mkNetId h.nextNetId }],
              nextNetId := h.nextNetId + 1 })
          = Except.ok (nid, h1) := heq
      rw [Except.ok.injEq, Prod.mk.injEq] at heq
      obtain ⟨hnid, hh1⟩ := heq
      subst hnid
      subst hh1
      have hfind2 : Docker.findNetwork
          (h.networks ++ [{ Name := name, ID := Docker.mkNetId h.nextNetId }]) name
          = { Name := name, ID := Docker.mkNetId h.nextNetId } :=
        Docker.findNetwork_append h.networks name (Docker.mkNetId h.nextNetId) hno
      constructor
      · simp [Docker.CreateBridgeNetwork, Docker.GetNetworkByName, hlist, hfind2,
              Docker.mkNetId_ne_empty]
      · intro _
        rw [show ({ networks :=
                      h.networks ++ [{ Name := name, ID := Docker.mkNetId h.nextNetId }],
                    nextNetId := h.nextNetId + 1 } : Docker.DockerHost).networks
              = h.networks ++ [{ Name := name, ID := Docker.mkNetId h.nextNetId }] from rfl,
            List.filter_append]
        have hfl : h.networks.filter (fun n => n.Name == name) = [] := by
          rw [List.filter_eq_nil_iff]
          intro n hn
          simp [hno n hn]
        rw [hfl]
        simp
  · -- a network with that name already exists and is returned unchanged
    have hc1 : Docker.CreateBridgeNetwork (some c) h name
        = (Except.ok ((Docker.findNetwork h.networks name).ID, h),
           [Docker.DockerCall.networkList]) := by
      simp [Docker.CreateBridgeNetwork, hg, hid]
    constructor
    · intro net hnet hname
      rw [hc1]
      exact ⟨rfl, by simp⟩
    · intro nid h1 heq
      rw [hc1] at heq
      replace heq : Except.ok (α := String × Docker.DockerHost)
          ((Docker.findNetwork h.networks name).ID, h) = Except.ok (nid, h1) := heq
      rw [Except.ok.injEq, Prod.mk.injEq] at heq
      obtain ⟨hnid, hh1⟩ := heq
      subst hnid
      subst hh1
      refine ⟨by rw [hc1], ?_⟩
      intro hfl
      have hno : ∀ n ∈ h.networks, n.Name ≠ name := by
        intro n hn hname
        have := List.filter_eq_nil_iff.mp hfl n hn
        simp [hname] at this
      have := Docker.findNetwork_of_not_mem h.networks name hno
      rw [this] at hid
      exact absurd rfl hid

/-- C9 witness: starting from a host that already has the `krane` bridge
(the state after a first successful call), the call returns the existing
ID with the state unchanged, and exactly one `krane` network exists. -/
theorem createBridgeNetwork_idempotent_witness :
    (Docker.CreateBridgeNetwork (some clientOk)
        { networks := [{ Name := "krane", ID := "net-0" }], nextNetId := 1 } "krane").1
      = Except.ok ("net-0",
          ({ networks := [{ Name := "krane", ID := "net-0" }], nextNetId := 1 }
            : Docker.DockerHost))
    ∧ (({ networks := [{ Name := "krane", ID := "net-0" }], nextNetId := 1 }
          : Docker.DockerHost).networks.filter (fun n => n.Name == "krane")).length = 1 := by
  have happ := (createBridgeNetwork_idempotent clientOk hostW "krane" rfl rfl
      (by intro n hn; exact absurd hn (List.not_mem_nil n))).2
    "net-0"
    ({ networks := [{ Name := "krane", ID := "net-0" }], nextNetId := 1 } : Docker.DockerHost)
    (by rfl)
  exact ⟨happ.1, happ.2 (by rfl)⟩

/-- C10: every exported docker operation, invoked before `New` has
initialized the module-wide client (client state `none`), returns the
`docker client not initialized` error and performs no runtime call. -/
theorem docker_ops_nil_client_guard
    (image deploymentName containerName networkID hPort cPort : String)
    (containerID netName imageID : String)
    (h : Docker.DockerHost) (stream : Bool) :
    Docker.PullImage none image = (Except.error "docker client not initialized", [])
    ∧ Docker.CreateContainer none image deploymentName containerName networkID hPort cPort
        = (Except.error "docker client not initialized", [])
    ∧ Docker.StartContainer none containerID = (Except.error "docker client not initialized", [])
    ∧ Docker.ConnectContainerToNetwork none networkID containerID
        = (Except.error "docker client not initialized", [])
    ∧ Docker.StopContainer none containerID = (Except.error "docker client not initialized", [])
    ∧ Docker.RemoveContainer none containerID = (Except.error "docker client not initialized", [])
    ∧ Docker.ListContainers none = (Except.error "docker client not initialized", [])
    ∧ Docker.GetContainerStatus none containerID stream
        = (Except.error "docker client not initialized", [])
    ∧ Docker.CreateBridgeNetwork none h netName
        = (Except.error "docker client not initialized", [])
    ∧ Docker.GetNetworkByName none h netName
        = (Except.error "docker client not initialized", [])
    ∧ Docker.RemoveImage none imageID = (Except.error "docker client not initialized", [])
    ∧ Docker.ReadContainerLogs none containerID
        = (Except.error "docker client not initialized", [])
    := ⟨rfl, rfl, rfl, rfl, rfl, rfl, rfl, rfl, rfl, rfl, rfl, rfl⟩

/-- C6: the container specification assembled by `CreateContainer` does
not use the deployment's config: at a concrete create call for deployment
`web`, the single `ContainerCreate` runtime call carries a configuration
whose hostname is the hardcoded `"bsn"` (not the deployment name) and
whose environment is the hardcoded `["TEST_ENV=pipi"]`, while only the
`deployment.name` label reflects the deployment. -/
theorem createContainer_hardcoded_hostname_env :
    ∃ conf : Docker.ContainerConfig, ∃ hc : Docker.HostConfig, ∃ nc : Docker.NetworkingConfig,
      (Docker.CreateContainer (some clientOk) "nginx:1.25" "web" "web-1" "net-1" "8080" "80").2
          = [Docker.DockerCall.containerCreate conf hc nc "web-1"]
      ∧ conf.Hostname = "bsn" ∧ conf.Env = ["TEST_ENV=pipi"]
      ∧ conf.Hostname ≠ "web" ∧ conf.Labels = [("deployment.name", "web")] := by
  refine ⟨{ Hostname := "bsn", Image := "nginx:1.25", Env := ["TEST_ENV=pipi"],
            Labels := [("deployment.name", "web")] },
          { PortBindings := [("80/tcp", { HostIP := "0.0.0.0", HostPort := "8080" })],
            AutoRemove := false },
          { EndpointsConfig := [("krane", "net-1")] }, ?_, rfl, rfl, ?_, rfl⟩
  · rfl
  · decide

/-- C7 counterexample: with the registry absent (empty), the derived
reference keeps the `/` separator, so the result is `/nginx:1.25` and not
the claimed `nginx:1.25`; the empty-tag default to `latest` does hold. -/
theorem format_image_url_empty_registry_cx :
    Docker.FormatImageSourceURL "" "nginx" "1.25" = "/nginx:1.25"
    ∧ Docker.FormatImageSourceURL "" "nginx" "1.25" ≠ "nginx:1.25"
    ∧ Docker.FormatImageSourceURL "" "nginx" "" = "/nginx:latest" := by
  refine ⟨rfl, ?_, rfl⟩
  decide

/-- C7 amended: the image reference is always formatted as
`registry/image:tag`, including the leading slash when the registry is
empty; an empty tag defaults to `latest`. -/
theorem format_image_url_always_prefixed (repo imageName tag : String) :
    Docker.FormatImageSourceURL repo imageName "" = repo ++ "/" ++ imageName ++ ":latest"
    ∧ (tag ≠ "" →
        Docker.FormatImageSourceURL repo imageName tag = repo ++ "/" ++ imageName ++ ":" ++ tag) := by
  constructor
  · show repo ++ "/" ++ imageName ++ ":" ++ "latest" = repo ++ "/" ++ imageName ++ ":latest"
    rw [String.append_assoc]
    rfl
  · intro hne
    simp [Docker.FormatImageSourceURL, hne]

/-- C7 witness: the amended statement evaluated at `docker.io/nginx` with
the non-empty tag `1.25`. -/
theorem format_image_url_always_prefixed_witness :
    ("1.25" : String) ≠ ""
    ∧ Docker.FormatImageSourceURL "docker.io" "nginx" "1.25" = "docker.io/nginx:1.25" :=
  ⟨by decide, (format_image_url_always_prefixed "docker.io" "nginx" "1.25").2 (by decide)⟩

/-- C4 counterexample: with an empty store (no config for `ghost`),
`Delete` still returns no synchronous error and a DELETE_DEPLOYMENT job
for `ghost` is enqueued. -/
theorem delete_missing_deployment_enqueues_cx :
    Reconciler.GetDeploymentConfig [] "ghost" = Except.error "deployment configuration not found"
    ∧ (Reconciler.Delete [] qEmpty "ghost").1 = none
    ∧ (Reconciler.Delete [] qEmpty "ghost").2.jobs
        = [{ Deployment := "ghost", type := "DELETE_DEPLOYMENT" }] :=
  ⟨rfl, rfl, rfl⟩

/-- C4 amended: `Delete` performs no synchronous existence validation:
even for a name with no stored config it returns no error, and (queue
space permitting) one DELETE_DEPLOYMENT job is enqueued; the
missing-deployment rejection is not produced by this function. -/
theorem delete_skips_existence_validation
    (configs : List (String × Config)) (q : Reconciler.JobQueue) (d : String)
    (hmissing : ∃ e, Reconciler.GetDeploymentConfig configs d = Except.error e)
    (hroom : q.jobs.length < q.capacity) :
    (Reconciler.Delete configs q d).1 = none
    ∧ (Reconciler.Delete configs q d).2.jobs
        = q.jobs ++ [{ Deployment := d, type := "DELETE_DEPLOYMENT" }] := by
  refine ⟨rfl, ?_⟩
  have hq : ¬ (q.capacity ≤ q.jobs.length) := not_le.mpr hroom
  simp [Reconciler.Delete, Reconciler.enqueue, Reconciler.enqueuerEnqueue, hq]

/-- C4 witness: the amended statement at the empty store and an empty
queue with room. -/
theorem delete_skips_existence_validation_witness :
    (∃ e, Reconciler.GetDeploymentConfig [] "ghost" = Except.error e)
    ∧ qEmpty.jobs.length < qEmpty.capacity
    ∧ ((Reconciler.Delete [] qEmpty "ghost").1 = none
       ∧ (Reconciler.Delete [] qEmpty "ghost").2.jobs
           = qEmpty.jobs ++ [{ Deployment := "ghost", type := "DELETE_DEPLOYMENT" }]) :=
  ⟨⟨"deployment configuration not found", rfl⟩, by decide,
   delete_skips_existence_validation [] qEmpty "ghost"
     ⟨"deployment configuration not found", rfl⟩ (by decide)⟩

/-- C5 counterexample: with a full queue and a stored config for `web`,
`Run` (and likewise `Delete`) returns no synchronous error and the queue
is unchanged — the job was silently dropped, no `QueueFull` error reached
the caller. -/
theorem queue_full_error_swallowed_cx :
    qFull.capacity ≤ qFull.jobs.length
    ∧ (Reconciler.Run [("web", cfgW)] qFull "web").1 = none
    ∧ (Reconciler.Run [("web", cfgW)] qFull "web").2 = qFull
    ∧ (Reconciler.Delete [("web", cfgW)] qFull "web").1 = none
    ∧ (Reconciler.Delete [("web", cfgW)] qFull "web").2 = qFull :=
  ⟨Nat.le_refl 0, rfl, rfl, rfl, rfl⟩

/-- C5 amended: when the queue is full, the enqueue failure is logged and
swallowed by the `enqueue` wrapper running in a spawned goroutine; every
reconciler action (Run, Delete, StartContainers, StopContainers,
RestartContainers) returns success to its caller and the job is silently
dropped, leaving the queue unchanged. -/
theorem actions_ignore_queue_full
    (configs : List (String × Config)) (q : Reconciler.JobQueue) (d : String) (cfg : Config)
    (hfull : q.capacity ≤ q.jobs.length)
    (hcfg : Reconciler.GetDeploymentConfig configs d = Except.ok cfg) :
    Reconciler.Run configs q d = (none, q)
    ∧ Reconciler.Delete configs q d = (none, q)
    ∧ Reconciler.StartContainers q d = (none, q)
    ∧ Reconciler.StopContainers q d = (none, q)
    ∧ Reconciler.RestartContainers configs q d = (none, q) := by
  have henq : ∀ j, Reconciler.enqueue q j = q := by
    intro j
    simp [Reconciler.enqueue, Reconciler.enqueuerEnqueue, hfull]
  refine ⟨?_, ?_, ?_, ?_, ?_⟩ <;>
    simp [Reconciler.Run, Reconciler.Delete, Reconciler.StartContainers,
          Reconciler.StopContainers, Reconciler.RestartContainers, hcfg, henq]

/-- C5 witness: the amended statement at the full queue `qFull` with the
stored config of `web`. -/
theorem actions_ignore_queue_full_witness :
    qFull.capacity ≤ qFull.jobs.length
    ∧ Reconciler.GetDeploymentConfig [("web", cfgW)] "web" = Except.ok cfgW
    ∧ Reconciler.StartContainers qFull "web" = (none, qFull) :=
  ⟨Nat.le_refl 0, rfl,
   (actions_ignore_queue_full [("web", cfgW)] qFull "web" cfgW (Nat.le_refl 0) rfl).2.2.1⟩

/-- C3 counterexample: in a world where deleting the secrets collection
fails while the jobs collection and the config are present, the finalize
phase of Delete reports the secrets error and stops: the jobs-collection
deletion and the config deletion are never attempted, so the steps are
not independent. -/
theorem delete_finally_aborts_on_first_failure_cx :
    (Deployment.deletePhaseFinally "web" wC3).1
        = Except.error "unable to remove secrets collection"
    ∧ (Deployment.deletePhaseFinally "web" wC3).2.2 = [Deployment.Event.delSecretsCol "web"]
    ∧ Deployment.Event.delJobsCol "web" ∉ (Deployment.deletePhaseFinally "web" wC3).2.2
    ∧ Deployment.Event.delConfig "web" ∉ (Deployment.deletePhaseFinally "web" wC3).2.2
    ∧ (Deployment.deletePhaseFinally "web" wC3).2.1.jobsCols = ["web"]
    ∧ (Deployment.deletePhaseFinally "web" wC3).2.1.configs = [("web", cfgW)] := by
  refine ⟨rfl, rfl, ?_, ?_, rfl, rfl⟩ <;> decide

/-- C3 amended: the finalize phase of Delete attempts the three deletions
in the order secrets collection, jobs collection, config — the config
last — but the steps are not independent: the first failure aborts the
phase (later deletions are not attempted, the attempted-call trace is a
prefix of the full sequence), it succeeds exactly when all three steps
succeed, and only then are all three pieces of state removed. -/
theorem delete_finally_ordered_abort (d : String) (w : Deployment.World) :
    ((Deployment.deletePhaseFinally d w).2.2 = [Deployment.Event.delSecretsCol d]
      ∨ (Deployment.deletePhaseFinally d w).2.2
          = [Deployment.Event.delSecretsCol d, Deployment.Event.delJobsCol d]
      ∨ (Deployment.deletePhaseFinally d w).2.2
          = [Deployment.Event.delSecretsCol d, Deployment.Event.delJobsCol d,
             Deployment.Event.delConfig d])
    ∧ ((Deployment.deletePhaseFinally d w).1 = Except.ok ()
        ↔ w.faults.delSecretsFails = false ∧ w.faults.delJobsFails = false
          ∧ w.faults.delConfigFails = false)
    ∧ (w.faults.delSecretsFails = true →
        Deployment.deletePhaseFinally d w
          = (Except.error "unable to remove secrets collection", w,
             [Deployment.Event.delSecretsCol d]))
    ∧ ((Deployment.deletePhaseFinally d w).1 = Except.ok () →
        (Deployment.deletePhaseFinally d w).2.1.secretsCols
            = w.secretsCols.filter (fun x => !(x == d))
        ∧ (Deployment.deletePhaseFinally d w).2.1.jobsCols
            = w.jobsCols.filter (fun x => !(x == d))
        ∧ (Deployment.deletePhaseFinally d w).2.1.configs
            = w.configs.filter (fun p => !(p.1 == d))) := by
  cases hs : w.faults.delSecretsFails <;> cases hj : w.faults.delJobsFails <;>
    cases hc : w.faults.delConfigFails <;>
      simp [Deployment.deletePhaseFinally, Deployment.seqE,
            Deployment.DeleteSecretsCollection, Deployment.DeleteJobsCollection,
            Deployment.DeleteDeploymentConfig, hs, hj, hc]

/-- C3 witness: the amended statement at `web` in the fault-free world. -/
theorem delete_finally_ordered_abort_witness :
    (Deployment.deletePhaseFinally "web" wW).1 = Except.ok ()
    ∧ (Deployment.deletePhaseFinally "web" wW).2.2
        = [Deployment.Event.delSecretsCol "web", Deployment.Event.delJobsCol "web",
           Deployment.Event.delConfig "web"] :=
  ⟨rfl,
   by
    rcases delete_finally_ordered_abort "web" wW with ⟨horder, -, -, -⟩
    rcases horder with h | h | h
    · exact absurd h (by decide)
    · exact absurd h (by decide)
    · exact h⟩

end Krane
